import Mathlib

/-!
Verification of the breakpoint / memory-watch widget
(`Source/Core/DolphinQt/Debugger/BreakpointWidget.cpp`) against its design
specification.

The widget file is the authority for everything it contains; the stores it
drives (`BreakPoints`, `MemChecks`, serialization, `Expression`, the ini
file helpers) are declared elsewhere and are modelled from the spec, each
with a doc comment saying so.  Machine integers (`u32`) are modelled as
`Nat`; addresses only ever flow through the code unmodified, so no wrapping
arithmetic is needed, and the hex parser enforces the `u32` range exactly
where `QString::toUInt` does.  A widget operation that can dereference a
null pointer is modelled as returning `Option`: `none` is the undefined
(crashing) outcome, `some` carries the new stores together with the list of
emitted UI events.
-/

/-- Table column indices, from the anonymous `TableColumns` enum. -/
def ENABLED_COLUMN : Nat := 0

def TYPE_COLUMN : Nat := 1

def SYMBOL_COLUMN : Nat := 2

def ADDRESS_COLUMN : Nat := 3

def END_ADDRESS_COLUMN : Nat := 4

def BREAK_COLUMN : Nat := 5

def LOG_COLUMN : Nat := 6

def READ_COLUMN : Nat := 7

def WRITE_COLUMN : Nat := 8

def CONDITION_COLUMN : Nat := 9

/-- Modelled from the spec: `Expression` (missing from the sources) is an
immutable parsed formula; the widget only ever moves it around via
`GetText` and `Expression::TryParse`, so we model an expression by its
text, and `GetText` is the identity.  A condition slot is therefore an
`Option String`. -/
abbrev Condition := Option String

/-- `TBreakPoint` (declared in `Core/PowerPC/BreakPoints.h`, missing from
the sources).  Modelled from the spec: `address: u32`, `is_enabled`,
`is_temporary`, `break_on_hit`, `log_on_hit`, `condition:
optional<Expression>`; a default-constructed value is zero/false/absent,
matching the in-class initializers the widget relies on when it writes
`TBreakPoint bp;` and leaves fields unset. -/
structure TBreakPoint where
  address : Nat := 0
  is_enabled : Bool := false
  is_temporary : Bool := false
  break_on_hit : Bool := false
  log_on_hit : Bool := false
  condition : Condition := none
deriving DecidableEq, Repr

/-- `TMemCheck` (declared in `Core/PowerPC/BreakPoints.h`, missing from the
sources).  Modelled from the spec: `start_address: u32`, `end_address: u32`
(equal means single address, `is_ranged = false`), read/write trigger
flags, `break_on_hit`, `log_on_hit`, `is_enabled`, optional condition; a
default-constructed value is zero for the addresses, `false` for the flags
other than `is_enabled` (which defaults to enabled) and no condition. -/
structure TMemCheck where
  start_address : Nat := 0
  end_address : Nat := 0
  is_ranged : Bool := false
  is_break_on_read : Bool := false
  is_break_on_write : Bool := false
  log_on_hit : Bool := false
  break_on_hit : Bool := false
  is_enabled : Bool := true
  condition : Condition := none
deriving DecidableEq, Repr

namespace BreakPoints

/-- Modelled from the spec: the instruction-breakpoint store is an ordered
sequence (insertion order, for display and serialization). -/
abbrev Store := List TBreakPoint

/-- Modelled from the spec: `Add(bp)` for the instruction store appends
without checking for an existing entry at the same address — §4.2 and §9
call the memory-watch `Add` idempotent "unlike AddressBreakpointStore", and
the widget source states "Unlike MBPs it Add() for TBreakpoint doesn't
check to see if it already exists" (BreakpointWidget.cpp:545). -/
def Add (l : Store) (bp : TBreakPoint) : Store := l ++ [bp]

/-- Modelled from the spec: `Remove(address)` deletes every entry at the
address; no-op if absent. -/
def Remove (l : Store) (address : Nat) : Store :=
  l.filter (fun bp => bp.address ≠ address)

/-- Modelled from the spec: `ToggleEnabled(address)` flips `is_enabled` of
the entry at the address; fails silently (no-op) if absent. -/
def ToggleBreakPoint (l : Store) (address : Nat) : Store :=
  l.map (fun bp =>
    if bp.address = address then { bp with is_enabled := !bp.is_enabled } else bp)

/-- Modelled from the spec: `Get(address) -> optional<Breakpoint>`; the
widget receives a pointer that is null exactly when no entry matches. -/
def GetBreakpoint (l : Store) (address : Nat) : Option TBreakPoint :=
  l.find? (fun bp => bp.address = address)

end BreakPoints

namespace MemChecks

/-- Modelled from the spec: the memory-watch store is an ordered sequence
keyed by `start_address`. -/
abbrev Store := List TMemCheck

/-- Modelled from the spec: memory-watch `Add` is idempotent by
`start_address` (replace-in-place): an entry with the same start address is
overwritten where it sits; otherwise the new entry is appended. -/
def Add (l : Store) (mc : TMemCheck) : Store :=
  if l.any (fun m => m.start_address = mc.start_address) then
    l.map (fun m => if m.start_address = mc.start_address then mc else m)
  else
    l ++ [mc]

/-- Modelled from the spec: `Remove(start_address)`; no-op if absent. -/
def Remove (l : Store) (address : Nat) : Store :=
  l.filter (fun m => m.start_address ≠ address)

/-- Modelled from the spec: flips `is_enabled` of the watch keyed by the
start address; no-op if absent. -/
def ToggleBreakPoint (l : Store) (address : Nat) : Store :=
  l.map (fun m =>
    if m.start_address = address then { m with is_enabled := !m.is_enabled } else m)

/-- Modelled from the spec: `Get(start_address) -> optional<MemoryWatch>`. -/
def GetMemCheck (l : Store) (address : Nat) : Option TMemCheck :=
  l.find? (fun m => m.start_address = address)

end MemChecks

/-- Modelled from the spec: `QString::toUInt(&ok, 16)` — the digit value of
one hexadecimal character. -/
def hexDigit (c : Char) : Option Nat :=
  if '0' ≤ c ∧ c ≤ '9' then some (c.toNat - '0'.toNat)
  else if 'a' ≤ c ∧ c ≤ 'f' then some (c.toNat - 'a'.toNat + 10)
  else if 'A' ≤ c ∧ c ≤ 'F' then some (c.toNat - 'A'.toNat + 10)
  else none

/-- Modelled from the spec: `QString::toUInt(&ok, 16)` parses the whole
string as unsigned hexadecimal and reports failure (`ok = false`) on an
empty string, on any non-hex character, and on overflow past `u32`. -/
def parseHexU32 (s : String) : Option Nat :=
  if s.data = [] then none
  else
    (s.data.foldl
        (fun acc c =>
          match acc, hexDigit c with
          | some v, some d => some (16 * v + d)
          | _, _ => none)
        (some 0)).bind
      (fun v => if v < 2 ^ 32 then some v else none)

/-- The externally observable UI actions a widget operation can take:
emitting the `BreakpointsChanged` signal and redrawing the table via
`Update()`.  The reject path of an edit takes neither. -/
inductive WidgetEvent where
  | breakpointsChanged
  | update
deriving DecidableEq, Repr

/-- The two stores the widget mutates, reached through
`m_system.GetPowerPC()`. -/
structure WidgetState where
  breakpoints : BreakPoints.Store
  memchecks : MemChecks.Store
deriving DecidableEq, Repr

/-- The observable outcome of one widget operation: the stores after the
call and the UI events emitted, in order. -/
abbrev WidgetResult := WidgetState × List WidgetEvent

/-- `BreakpointWidget::EditBreakpoint` (BreakpointWidget.cpp:518-551),
parameterized by `tp`, the behaviour of `Expression::TryParse`.  The C++
dereferences the `GetBreakpoint` pointer unconditionally, so a missing
entry is the undefined outcome `none`.  A non-hex address string makes the
function return before touching the store or emitting anything. -/
def editBreakpoint (tp : String → Option String) (st : WidgetState) (address : Nat)
    (edit : Nat) (string : Option String) : Option WidgetResult :=
  match BreakPoints.GetBreakpoint st.breakpoints address with
  | none => none
  | some old_bp =>
    let is_enabled := if edit = ENABLED_COLUMN then !old_bp.is_enabled else old_bp.is_enabled
    let log_on_hit := if edit = LOG_COLUMN then !old_bp.log_on_hit else old_bp.log_on_hit
    let break_on_hit := if edit = BREAK_COLUMN then !old_bp.break_on_hit else old_bp.break_on_hit
    let addressStep : Option Nat :=
      match string with
      | some s =>
        if edit = ADDRESS_COLUMN then
          match parseHexU32 s with
          | none => none
          | some new_address => some new_address
        else some address
      | none => some address
    match addressStep with
    | none => some (st, [])
    | some bp_address =>
      let condition : Condition :=
        match string with
        | some s =>
          if edit = CONDITION_COLUMN then tp s
          else
            match old_bp.condition with
            | some text => if edit ≠ CONDITION_COLUMN then tp text else none
            | none => none
        | none =>
          match old_bp.condition with
          | some text => if edit ≠ CONDITION_COLUMN then tp text else none
          | none => none
      let bp : TBreakPoint :=
        { address := bp_address, is_enabled := is_enabled, is_temporary := false,
          break_on_hit := break_on_hit, log_on_hit := log_on_hit, condition := condition }
      let bps := BreakPoints.Add (BreakPoints.Remove st.breakpoints address) bp
      some ({ st with breakpoints := bps },
        [WidgetEvent.breakpointsChanged, WidgetEvent.update])

/-- `BreakpointWidget::EditMBP` (BreakpointWidget.cpp:599-655),
parameterized by the behaviour of `Expression::TryParse`.  A missing entry
is dereferenced unconditionally (`none`); a non-hex address string returns
before any store change; editing the start address sets `address_changed`,
which removes the entry keyed by the old address after the add. -/
def editMBP (tp : String → Option String) (st : WidgetState) (address : Nat)
    (edit : Nat) (string : Option String) : Option WidgetResult :=
  match MemChecks.GetMemCheck st.memchecks address with
  | none => none
  | some old_mbp =>
    let is_enabled := if edit = ENABLED_COLUMN then !old_mbp.is_enabled else old_mbp.is_enabled
    let log_on_hit := if edit = LOG_COLUMN then !old_mbp.log_on_hit else old_mbp.log_on_hit
    let break_on_hit :=
      if edit = BREAK_COLUMN then !old_mbp.break_on_hit else old_mbp.break_on_hit
    let is_break_on_read :=
      if edit = READ_COLUMN then !old_mbp.is_break_on_read else old_mbp.is_break_on_read
    let is_break_on_write :=
      if edit = WRITE_COLUMN then !old_mbp.is_break_on_write else old_mbp.is_break_on_write
    let addressStep : Option (Nat × Nat × Bool) :=
      match string with
      | some s =>
        if edit = ADDRESS_COLUMN ∨ edit = END_ADDRESS_COLUMN then
          match parseHexU32 s with
          | none => none
          | some new_address =>
            if edit = ADDRESS_COLUMN then
              some (new_address, old_mbp.end_address, true)
            else
              some (old_mbp.start_address, new_address, false)
        else some (old_mbp.start_address, old_mbp.end_address, false)
      | none => some (old_mbp.start_address, old_mbp.end_address, false)
    match addressStep with
    | none => some (st, [])
    | some (start_address, end_address, address_changed) =>
      let condition : Condition :=
        match string with
        | some s =>
          if edit = CONDITION_COLUMN then tp s
          else
            match old_mbp.condition with
            | some text => if edit ≠ CONDITION_COLUMN then tp text else none
            | none => none
        | none =>
          match old_mbp.condition with
          | some text => if edit ≠ CONDITION_COLUMN then tp text else none
          | none => none
      let mbp : TMemCheck :=
        { start_address := start_address, end_address := end_address,
          is_ranged := start_address ≠ end_address,
          is_break_on_read := is_break_on_read, is_break_on_write := is_break_on_write,
          log_on_hit := log_on_hit, break_on_hit := break_on_hit,
          is_enabled := is_enabled, condition := condition }
      let mcs0 := MemChecks.Add st.memchecks mbp
      let mcs := if address_changed then MemChecks.Remove mcs0 address else mcs0
      some ({ st with memchecks := mcs },
        [WidgetEvent.breakpointsChanged, WidgetEvent.update])

/-- `BreakpointWidget::OnClicked` (BreakpointWidget.cpp:198-224), given the
clicked column and the row's address / memcheck flag read from the item
data.  Address columns are ignored; the enabled column toggles the matching
store entry and emits; every other column forwards to the edit path without
a string. -/
def onClicked (tp : String → Option String) (st : WidgetState) (column : Nat)
    (address : Nat) (is_memcheck : Bool) : Option WidgetResult :=
  if column = ADDRESS_COLUMN ∨ column = END_ADDRESS_COLUMN then
    some (st, [])
  else if column = ENABLED_COLUMN then
    let st' :=
      if is_memcheck then
        { st with memchecks := MemChecks.ToggleBreakPoint st.memchecks address }
      else
        { st with breakpoints := BreakPoints.ToggleBreakPoint st.breakpoints address }
    some (st', [WidgetEvent.breakpointsChanged, WidgetEvent.update])
  else if is_memcheck then
    editMBP tp st address column none
  else
    editBreakpoint tp st address column none

/-- `BreakpointWidget::OnClear` (BreakpointWidget.cpp:365-377): clears both
stores through the debug interface, then emits. -/
def onClear (_st : WidgetState) : WidgetResult :=
  (⟨[], []⟩, [WidgetEvent.breakpointsChanged, WidgetEvent.update])

/-- The context-menu Delete action (BreakpointWidget.cpp:474-478 and
491-496): removes the entry under the cursor from the matching store and
emits. -/
def contextMenuDelete (st : WidgetState) (address : Nat) (is_memcheck : Bool) :
    WidgetResult :=
  let st' :=
    if is_memcheck then { st with memchecks := MemChecks.Remove st.memchecks address }
    else { st with breakpoints := BreakPoints.Remove st.breakpoints address }
  (st', [WidgetEvent.breakpointsChanged, WidgetEvent.update])

/-- `BreakpointWidget::AddBP` (BreakpointWidget.cpp:507-516).  Modelled
from the spec for the missing `BreakPoints::Add(addr, temp, break, log,
condition)` overload: it stores a new enabled breakpoint with the given
flags.  An empty condition string is "no condition"; otherwise the text is
handed to `Expression::TryParse`. -/
def addBP (tp : String → Option String) (st : WidgetState) (addr : Nat) (temp : Bool)
    (break_on_hit : Bool) (log_on_hit : Bool) (condition : String) : WidgetResult :=
  let bp : TBreakPoint :=
    { address := addr, is_enabled := true, is_temporary := temp,
      break_on_hit := break_on_hit, log_on_hit := log_on_hit,
      condition := if condition ≠ "" then tp condition else none }
  ({ st with breakpoints := BreakPoints.Add st.breakpoints bp },
    [WidgetEvent.breakpointsChanged, WidgetEvent.update])

/-- `BreakpointWidget::AddAddressMBP` (BreakpointWidget.cpp:553-574): a
single-address watch; start and end are the same address and `is_ranged` is
false; `is_enabled` keeps its default. -/
def addAddressMBP (tp : String → Option String) (st : WidgetState) (addr : Nat)
    (on_read : Bool) (on_write : Bool) (do_log : Bool) (do_break : Bool)
    (condition : String) : WidgetResult :=
  let check : TMemCheck :=
    { start_address := addr, end_address := addr, is_ranged := false,
      is_break_on_read := on_read, is_break_on_write := on_write,
      log_on_hit := do_log, break_on_hit := do_break,
      condition := if condition ≠ "" then tp condition else none }
  ({ st with memchecks := MemChecks.Add st.memchecks check },
    [WidgetEvent.breakpointsChanged, WidgetEvent.update])

/-- `BreakpointWidget::AddRangedMBP` (BreakpointWidget.cpp:576-597): a
ranged watch; `is_ranged` is set to true unconditionally, whatever `from`
and `to` are. -/
def addRangedMBP (tp : String → Option String) (st : WidgetState) (from_addr : Nat)
    (to_addr : Nat) (on_read : Bool) (on_write : Bool) (do_log : Bool)
    (do_break : Bool) (condition : String) : WidgetResult :=
  let check : TMemCheck :=
    { start_address := from_addr, end_address := to_addr, is_ranged := true,
      is_break_on_read := on_read, is_break_on_write := on_write,
      log_on_hit := do_log, break_on_hit := do_break,
      condition := if condition ≠ "" then tp condition else none }
  ({ st with memchecks := MemChecks.Add st.memchecks check },
    [WidgetEvent.breakpointsChanged, WidgetEvent.update])

/-- Modelled from the spec: serialize one breakpoint as a delimited record
— address in hex, booleans as 0/1, condition as raw text (empty if
absent). -/
def serializeBp (bp : TBreakPoint) : String :=
  String.intercalate " "
    [String.mk (Nat.toDigits 16 bp.address),
     if bp.is_enabled then "1" else "0",
     if bp.is_temporary then "1" else "0",
     if bp.break_on_hit then "1" else "0",
     if bp.log_on_hit then "1" else "0",
     (bp.condition.getD "")]

/-- Modelled from the spec: parse one line of the persisted breakpoint
format back into a breakpoint; a malformed line yields no entry. -/
def deserializeBp (line : String) : Option TBreakPoint :=
  match line.splitOn " " with
  | a :: e :: t :: b :: l :: rest =>
    match parseHexU32 a with
    | none => none
    | some address =>
      let text := String.intercalate " " rest
      some { address := address, is_enabled := e = "1", is_temporary := t = "1",
             break_on_hit := b = "1", log_on_hit := l = "1",
             condition := if text = "" then none else some text }
  | _ => none

/-- Modelled from the spec: serialize one memory watch as a delimited
record of its fields (addresses in hex, booleans as 0/1, condition raw). -/
def serializeMc (mc : TMemCheck) : String :=
  String.intercalate " "
    [String.mk (Nat.toDigits 16 mc.start_address),
     String.mk (Nat.toDigits 16 mc.end_address),
     if mc.is_ranged then "1" else "0",
     if mc.is_break_on_read then "1" else "0",
     if mc.is_break_on_write then "1" else "0",
     if mc.log_on_hit then "1" else "0",
     if mc.break_on_hit then "1" else "0",
     if mc.is_enabled then "1" else "0",
     (mc.condition.getD "")]

/-- Modelled from the spec: parse one line of the persisted memory-watch
format; a malformed line yields no entry. -/
def deserializeMc (line : String) : Option TMemCheck :=
  match line.splitOn " " with
  | sa :: ea :: rg :: rd :: wr :: lg :: br :: en :: rest =>
    match parseHexU32 sa, parseHexU32 ea with
    | some start_address, some end_address =>
      let text := String.intercalate " " rest
      some { start_address := start_address, end_address := end_address,
             is_ranged := rg = "1", is_break_on_read := rd = "1",
             is_break_on_write := wr = "1", log_on_hit := lg = "1",
             break_on_hit := br = "1", is_enabled := en = "1",
             condition := if text = "" then none else some text }
    | _, _ => none
  | _ => none

/-- Modelled from the spec: `BreakPoints::GetStrings`, one line per entry
in insertion order. -/
def BreakPoints.GetStrings (l : BreakPoints.Store) : List String := l.map serializeBp

/-- Modelled from the spec: `BreakPoints::AddFromStrings` adds each parsed
line through `Add`. -/
def BreakPoints.AddFromStrings (lines : List String) : BreakPoints.Store :=
  (lines.filterMap deserializeBp).foldl BreakPoints.Add []

/-- Modelled from the spec: `MemChecks::GetStrings`. -/
def MemChecks.GetStrings (l : MemChecks.Store) : List String := l.map serializeMc

/-- Modelled from the spec: `MemChecks::AddFromStrings` adds each parsed
line through `Add`. -/
def MemChecks.AddFromStrings (lines : List String) : MemChecks.Store :=
  (lines.filterMap deserializeMc).foldl MemChecks.Add []

/-- Modelled from the spec: `Common::IniFile` as far as the widget uses it
— named sections, each holding a list of lines.  `GetLines` reports
whether the section exists; `SetLines` replaces it or appends it. -/
structure IniFile where
  sections : List (String × List String)
deriving DecidableEq, Repr

/-- Modelled from the spec: `IniFile::GetLines`; `none` when the section is
missing. -/
def IniFile.getLines (ini : IniFile) (name : String) : Option (List String) :=
  (ini.sections.find? (fun sec => sec.1 = name)).map (fun sec => sec.2)

/-- Modelled from the spec: `IniFile::SetLines` overwrites the section if
present, otherwise appends it. -/
def IniFile.setLines (ini : IniFile) (name : String) (lines : List String) : IniFile :=
  if ini.sections.any (fun sec => sec.1 = name) then
    ⟨ini.sections.map (fun sec => if sec.1 = name then (name, lines) else sec)⟩
  else
    ⟨ini.sections ++ [(name, lines)]⟩

/-- `BreakpointWidget::OnLoad` (BreakpointWidget.cpp:410-438).  The
argument is `none` when the per-game ini file fails to load: the function
returns at once, leaving both stores untouched.  Each store is cleared and
repopulated only when its section exists. -/
def onLoad (ini : Option IniFile) (st : WidgetState) : WidgetResult :=
  match ini with
  | none => (st, [])
  | some ini =>
    let st1 :=
      match ini.getLines "BreakPoints" with
      | some lines => { st with breakpoints := BreakPoints.AddFromStrings lines }
      | none => st
    let st2 :=
      match ini.getLines "MemoryBreakPoints" with
      | some lines => { st1 with memchecks := MemChecks.AddFromStrings lines }
      | none => st1
    (st2, [WidgetEvent.breakpointsChanged, WidgetEvent.update])

/-- `BreakpointWidget::OnSave` (BreakpointWidget.cpp:440-448): loads the
per-game ini (an unreadable file acts as an empty one), stores the two
stores' line lists under `BreakPoints` and `MemoryBreakPoints`, and writes
the file back. -/
def onSave (ini : Option IniFile) (st : WidgetState) : IniFile :=
  let base := ini.getD ⟨[]⟩
  (base.setLines "BreakPoints" (BreakPoints.GetStrings st.breakpoints)).setLines
    "MemoryBreakPoints" (MemChecks.GetStrings st.memchecks)

/-! ### Concrete fixtures shared by the witnesses and counterexamples -/

/-- The identity parse behaviour: every condition text parses to itself
(the behaviour `Expression::TryParse` has on text obtained from
`GetText` of a previously parsed expression). -/
def tpId : String → Option String := fun s => some s

/-- A sample instruction breakpoint. -/
def sampleBp : TBreakPoint :=
  { address := 7, is_enabled := true, is_temporary := true, break_on_hit := true,
    log_on_hit := false, condition := some "r3 == 5" }

/-- A sample ranged memory watch. -/
def sampleMc : TMemCheck :=
  { start_address := 5, end_address := 9, is_ranged := true, is_break_on_read := true,
    is_break_on_write := false, log_on_hit := true, break_on_hit := true,
    is_enabled := true, condition := none }

/-- A sample widget state holding one breakpoint and one watch. -/
def sampleState : WidgetState := ⟨[sampleBp], [sampleMc]⟩

/-! ### Helper lemmas about the stores -/

theorem getBreakpoint_addr {l : BreakPoints.Store} {a : Nat} {bp : TBreakPoint}
    (h : BreakPoints.GetBreakpoint l a = some bp) : bp.address = a := by
  have := List.find?_some h
  simpa using this

theorem getMemCheck_start {l : MemChecks.Store} {a : Nat} {m : TMemCheck}
    (h : MemChecks.GetMemCheck l a = some m) : m.start_address = a := by
  have := List.find?_some h
  simpa using this

theorem getBreakpoint_remove_add {l : BreakPoints.Store} {a : Nat} {bp : TBreakPoint}
    (h : bp.address = a) :
    BreakPoints.GetBreakpoint (BreakPoints.Add (BreakPoints.Remove l a) bp) a = some bp := by
  unfold BreakPoints.GetBreakpoint BreakPoints.Add BreakPoints.Remove
  rw [List.find?_append]
  have hnone : (l.filter (fun bp => bp.address ≠ a)).find? (fun bp => bp.address = a) = none := by
    rw [List.find?_eq_none]
    intro x hx
    have := List.of_mem_filter hx
    simpa using this
  simp [hnone, h]

theorem remove_add_remove (l : BreakPoints.Store) (a : Nat) (bp : TBreakPoint)
    (h : bp.address = a) :
    BreakPoints.Remove (BreakPoints.Add (BreakPoints.Remove l a) bp) a =
      BreakPoints.Remove l a := by
  unfold BreakPoints.Add BreakPoints.Remove
  rw [List.filter_append, List.filter_filter]
  simp [h]

theorem getMemCheck_remove (l : MemChecks.Store) (a : Nat) :
    MemChecks.GetMemCheck (MemChecks.Remove l a) a = none := by
  unfold MemChecks.GetMemCheck MemChecks.Remove
  rw [List.find?_eq_none]
  intro x hx
  have := List.of_mem_filter hx
  simpa using this

theorem toggle_toggle_bp (l : BreakPoints.Store) (a : Nat) :
    BreakPoints.ToggleBreakPoint (BreakPoints.ToggleBreakPoint l a) a = l := by
  unfold BreakPoints.ToggleBreakPoint
  rw [List.map_map]
  have hcomp : ((fun bp : TBreakPoint =>
          if bp.address = a then { bp with is_enabled := !bp.is_enabled } else bp) ∘
        (fun bp : TBreakPoint =>
          if bp.address = a then { bp with is_enabled := !bp.is_enabled } else bp)) = id := by
    funext bp
    rcases bp with ⟨ad, en, tmp, bh, lh, cond⟩
    by_cases hb : ad = a <;> simp [Function.comp, hb]
  rw [hcomp, List.map_id]

theorem toggle_toggle_mc (l : MemChecks.Store) (a : Nat) :
    MemChecks.ToggleBreakPoint (MemChecks.ToggleBreakPoint l a) a = l := by
  unfold MemChecks.ToggleBreakPoint
  rw [List.map_map]
  have hcomp : ((fun m : TMemCheck =>
          if m.start_address = a then { m with is_enabled := !m.is_enabled } else m) ∘
        (fun m : TMemCheck =>
          if m.start_address = a then { m with is_enabled := !m.is_enabled } else m)) = id := by
    funext m
    rcases m with ⟨sa, ea, rg, rd, wr, lh, bh, en, cond⟩
    by_cases hm : sa = a <;> simp [Function.comp, hm]
  rw [hcomp, List.map_id]

theorem mem_add_mc {l : MemChecks.Store} {mc x : TMemCheck}
    (h : x ∈ MemChecks.Add l mc) : x ∈ l ∨ x = mc := by
  unfold MemChecks.Add at h
  by_cases hany : l.any (fun m => m.start_address = mc.start_address)
  · rw [if_pos hany] at h
    obtain ⟨y, hy, hyx⟩ := List.mem_map.mp h
    by_cases hk : y.start_address = mc.start_address
    · right; rw [if_pos hk] at hyx; exact hyx.symm
    · left; rw [if_neg hk] at hyx; exact hyx ▸ hy
  · rw [if_neg hany] at h
    rcases List.mem_append.mp h with h' | h'
    · exact Or.inl h'
    · exact Or.inr (List.mem_singleton.mp h')

theorem add_mc_idem (l : MemChecks.Store) (mc : TMemCheck) :
    MemChecks.Add (MemChecks.Add l mc) mc = MemChecks.Add l mc := by
  unfold MemChecks.Add
  by_cases hany : l.any (fun m => m.start_address = mc.start_address)
  · rw [if_pos hany]
    have hany2 : (l.map (fun m =>
        if m.start_address = mc.start_address then mc else m)).any
          (fun m => m.start_address = mc.start_address) = true := by
      rw [List.any_map]
      rcases List.any_eq_true.mp hany with ⟨x, hx, hkey⟩
      exact List.any_eq_true.mpr ⟨x, hx, by simp [Function.comp, of_decide_eq_true hkey]⟩
    rw [if_pos hany2, List.map_map]
    have hcomp : ((fun m : TMemCheck => if m.start_address = mc.start_address then mc else m) ∘
        (fun m : TMemCheck => if m.start_address = mc.start_address then mc else m)) =
        (fun m : TMemCheck => if m.start_address = mc.start_address then mc else m) := by
      funext m
      by_cases hm : m.start_address = mc.start_address <;> simp [Function.comp, hm]
    rw [hcomp]
  · rw [if_neg hany]
    have hany2 : ((l ++ [mc]).any (fun m => m.start_address = mc.start_address)) = true := by
      simp
    rw [if_pos hany2, List.map_append]
    have hl : l.map (fun m => if m.start_address = mc.start_address then mc else m) = l := by
      have hnone : ∀ x ∈ l, ¬(x.start_address = mc.start_address) := by
        intro x hx
        by_contra hc
        exact hany (List.any_eq_true.mpr ⟨x, hx, decide_eq_true hc⟩)
      calc l.map (fun m => if m.start_address = mc.start_address then mc else m)
          = l.map id := List.map_congr_left (fun x hx => by simp [hnone x hx])
        _ = l := List.map_id l
    rw [hl]
    simp

theorem length_add_of_any {l : MemChecks.Store} {mc : TMemCheck}
    (hany : l.any (fun m => m.start_address = mc.start_address) = true) :
    (MemChecks.Add l mc).length = l.length := by
  unfold MemChecks.Add
  rw [if_pos hany, List.length_map]

theorem filter_add_of_any {l : MemChecks.Store} {mc : TMemCheck} {a : Nat}
    (h : mc.start_address = a)
    (hany : l.any (fun m => m.start_address = mc.start_address) = true) :
    ((MemChecks.Add l mc).filter (fun m => m.start_address = a)).length =
      (l.filter (fun m => m.start_address = a)).length := by
  subst h
  unfold MemChecks.Add
  rw [if_pos hany]
  clear hany
  induction l with
  | nil => rfl
  | cons x xs ih =>
    by_cases hx : x.start_address = mc.start_address <;>
      simp [List.filter_cons, hx, ih]

theorem filter_length_one_of_pairwise {l : MemChecks.Store} {a : Nat}
    (hp : l.Pairwise (fun x y => x.start_address ≠ y.start_address))
    (hs : (MemChecks.GetMemCheck l a).isSome = true) :
    (l.filter (fun m => m.start_address = a)).length = 1 := by
  induction l with
  | nil => simp [MemChecks.GetMemCheck] at hs
  | cons x xs ih =>
    rcases List.pairwise_cons.mp hp with ⟨hx, hp'⟩
    by_cases hxa : x.start_address = a
    · have hnil : xs.filter (fun m => m.start_address = a) = [] := by
        rw [List.filter_eq_nil]
        intro y hy
        simp only [decide_eq_true_eq]
        intro hya
        exact hx y hy (by rw [hxa, hya])
      simp [List.filter_cons, hxa, hnil]
    · have hs' : (MemChecks.GetMemCheck xs a).isSome = true := by
        unfold MemChecks.GetMemCheck at hs ⊢
        rw [List.find?_cons] at hs
        simpa [hxa] using hs
      simp [List.filter_cons, hxa, ih hp' hs']

theorem filter_remove_add_bp {l : BreakPoints.Store} {a t : Nat} {bp : TBreakPoint}
    (h : bp.address = t) (h2 : t = a ∨ ∀ x ∈ l, x.address ≠ t) :
    ((BreakPoints.Add (BreakPoints.Remove l a) bp).filter
        (fun x => x.address = t)).length = 1 := by
  unfold BreakPoints.Add BreakPoints.Remove
  rw [List.filter_append]
  have hnil : (l.filter (fun x => x.address ≠ a)).filter (fun x => x.address = t) = [] := by
    rw [List.filter_eq_nil]
    intro y hy
    simp only [decide_eq_true_eq]
    intro hyt
    rcases h2 with h2 | h2
    · have := List.of_mem_filter hy
      simp only [decide_eq_true_eq] at this
      exact this (by rw [hyt, h2])
    · exact h2 y (List.mem_of_mem_filter hy) hyt
  rw [hnil]
  simp [List.filter_cons, h]

theorem getLines_setLines_same (ini : IniFile) (n : String) (v : List String) :
    (ini.setLines n v).getLines n = some v := by
  rcases ini with ⟨secs⟩
  unfold IniFile.setLines IniFile.getLines
  by_cases hany : secs.any (fun sec => sec.1 = n)
  · rw [if_pos hany]
    simp only
    rcases List.any_eq_true.mp hany with ⟨x, hx, hkey⟩
    clear hany
    induction secs with
    | nil => cases hx
    | cons y ys ih =>
      by_cases hy : y.1 = n
      · simp [List.find?_cons, hy]
      · rcases List.mem_cons.mp hx with rfl | hx'
        · exact absurd (of_decide_eq_true hkey) hy
        · simp only [List.map_cons, List.find?_cons, if_neg hy]
          have : (decide (y.1 = n)) = false := decide_eq_false hy
          rw [this]
          exact ih hx'
  · rw [if_neg hany]
    simp only
    have hnone : secs.find? (fun sec => sec.1 = n) = none := by
      rw [List.find?_eq_none]
      intro x hx
      simp only [decide_eq_true_eq]
      intro hc
      exact hany (List.any_eq_true.mpr ⟨x, hx, decide_eq_true hc⟩)
    rw [List.find?_append, hnone]
    simp

theorem getLines_setLines_ne (ini : IniFile) {n n' : String} (v : List String)
    (h : n' ≠ n) : (ini.setLines n' v).getLines n = ini.getLines n := by
  rcases ini with ⟨secs⟩
  unfold IniFile.setLines IniFile.getLines
  by_cases hany : secs.any (fun sec => sec.1 = n')
  · rw [if_pos hany]
    simp only
    clear hany
    induction secs with
    | nil => rfl
    | cons y ys ih =>
      by_cases hy : y.1 = n'
      · have hyn : (decide (y.1 = n)) = false := by
          apply decide_eq_false
          rw [hy]
          exact h
        simp only [List.map_cons, List.find?_cons, if_pos hy]
        have : (decide ((n', v).1 = n)) = false := decide_eq_false h
        rw [this, hyn]
        exact ih
      · simp only [List.map_cons, List.find?_cons, if_neg hy]
        cases hd : decide (y.1 = n)
        · rw [ih]
        · rfl
  · rw [if_neg hany]
    simp only
    rw [List.find?_append]
    have : ([(n', v)].find? (fun sec => sec.1 = n)) = none := by
      simp [h]
    rw [this]
    simp

/-- C9: `EditBreakpoint` and `EditMBP` have the unstated precondition that
an entry exists at the given address in the corresponding store: both
dereference the `GetBreakpoint` / `GetMemCheck` result unconditionally, so
the operation is defined (`isSome`, the null branch unreachable) exactly
when the lookup succeeds; when the entry is missing the outcome is the
undefined `none`, not a no-op. -/
theorem C9_edit_requires_existing_entry (tp : String → Option String) (st : WidgetState)
    (a e : Nat) (s : Option String) :
    ((editBreakpoint tp st a e s).isSome ↔
      (BreakPoints.GetBreakpoint st.breakpoints a).isSome) ∧
    ((editMBP tp st a e s).isSome ↔
      (MemChecks.GetMemCheck st.memchecks a).isSome) := by
  constructor
  · cases h : BreakPoints.GetBreakpoint st.breakpoints a with
    | none =>
      unfold editBreakpoint
      rw [h]
      simp
    | some old =>
      unfold editBreakpoint
      rw [h]
      simp only [Option.isSome_some, iff_true]
      split <;> simp
  · cases h : MemChecks.GetMemCheck st.memchecks a with
    | none =>
      unfold editMBP
      rw [h]
      simp
    | some old =>
      unfold editMBP
      rw [h]
      simp only [Option.isSome_some, iff_true]
      split <;> simp

/-- C10: an `EditMBP` on the start-address column with a valid hex string
equal to the watch's existing start address leaves the store without any
watch at that address: the replace-in-place `Add` is followed, because
`address_changed` is set, by a `Remove` keyed by the same address, which
deletes the entry just added. -/
theorem C10_self_address_edit_deletes (tp : String → Option String) (st : WidgetState)
    (a : Nat) (s : String) (old : TMemCheck)
    (h1 : MemChecks.GetMemCheck st.memchecks a = some old)
    (h2 : parseHexU32 s = some a) :
    ∃ st' ev, editMBP tp st a ADDRESS_COLUMN (some s) = some (st', ev) ∧
      MemChecks.GetMemCheck st'.memchecks a = none := by
  unfold editMBP
  rw [h1]
  simp only [ADDRESS_COLUMN, END_ADDRESS_COLUMN, ENABLED_COLUMN, LOG_COLUMN, BREAK_COLUMN,
    READ_COLUMN, WRITE_COLUMN, CONDITION_COLUMN, h2]
  norm_num
  exact getMemCheck_remove _ _

/-- Witness for C10 at a concrete watch: editing the start address of the
watch at `5` with the hex text `"5"` removes it from the store. -/
theorem C10_witness :
    ∃ st' ev, editMBP tpId sampleState 5 ADDRESS_COLUMN (some "5") = some (st', ev) ∧
      MemChecks.GetMemCheck st'.memchecks 5 = none :=
  C10_self_address_edit_deletes tpId sampleState 5 "5" sampleMc (by rfl) (by rfl)

/-- C1 (counterexample): on a non-hex address edit the widget's entire
observable outcome is `some (st, [])` — the store is unchanged and the
event trace is empty, so no user-visible validation failure is surfaced
(the claim requires one); the edit is simply dropped. -/
theorem C1_counterexample :
    editBreakpoint tpId sampleState 7 ADDRESS_COLUMN (some "nothex") =
      some (sampleState, []) ∧
    editMBP tpId sampleState 5 END_ADDRESS_COLUMN (some "nothex") =
      some (sampleState, []) := by
  constructor <;> rfl

/-- C1 (amended): editing a breakpoint's or watch's address field with a
string that is not valid hexadecimal rejects the edit silently: the store
is left unchanged and there is no crash, but no user-visible validation
failure is surfaced — the function returns emitting no event at all. -/
theorem C1_invalid_hex_rejected_silently (tp : String → Option String)
    (st : WidgetState) (a b e : Nat) (s : String)
    (hbp : (BreakPoints.GetBreakpoint st.breakpoints a).isSome = true)
    (hmc : (MemChecks.GetMemCheck st.memchecks b).isSome = true)
    (hs : parseHexU32 s = none) :
    (e = ADDRESS_COLUMN → editBreakpoint tp st a e (some s) = some (st, [])) ∧
    (e = ADDRESS_COLUMN ∨ e = END_ADDRESS_COLUMN →
      editMBP tp st b e (some s) = some (st, [])) := by
  constructor
  · intro he
    subst he
    obtain ⟨old, hold⟩ := Option.isSome_iff_exists.mp hbp
    unfold editBreakpoint
    rw [hold]
    simp [ADDRESS_COLUMN, hs]
  · intro he
    obtain ⟨old, hold⟩ := Option.isSome_iff_exists.mp hmc
    unfold editMBP
    rw [hold]
    rcases he with he | he <;> subst he <;>
      simp [ADDRESS_COLUMN, END_ADDRESS_COLUMN, hs]

/-- Witness for C1: concrete rejected edits on the sample state with the
non-hex text `"xyz"`. -/
theorem C1_witness :
    (ADDRESS_COLUMN = ADDRESS_COLUMN →
      editBreakpoint tpId sampleState 7 ADDRESS_COLUMN (some "xyz") =
        some (sampleState, [])) ∧
    (ADDRESS_COLUMN = ADDRESS_COLUMN ∨ ADDRESS_COLUMN = END_ADDRESS_COLUMN →
      editMBP tpId sampleState 5 ADDRESS_COLUMN (some "xyz") =
        some (sampleState, [])) :=
  C1_invalid_hex_rejected_silently tpId sampleState 7 5 ADDRESS_COLUMN "xyz"
    (by rfl) (by rfl) (by rfl)

/-- The spec's watch invariant: `is_ranged` is false exactly when the start
and end addresses coincide. -/
def mcInvariant (m : TMemCheck) : Prop :=
  m.is_ranged = false ↔ m.start_address = m.end_address

/-- The watch `AddRangedMBP` stores when called with `from = to = 0x100`. -/
def c2entry : TMemCheck :=
  { start_address := 256, end_address := 256, is_ranged := true,
    is_break_on_read := true, is_break_on_write := true, log_on_hit := true,
    break_on_hit := true, is_enabled := true, condition := none }

/-- C2 (counterexample): `AddRangedMBP` called with `from = to = 0x100`
stores a watch whose `is_ranged` is true even though its start and end
addresses are equal, violating the claimed invariant. -/
theorem C2_counterexample :
    (addRangedMBP tpId ⟨[], []⟩ 256 256 true true true true "").1.memchecks =
      [c2entry] ∧ ¬ mcInvariant c2entry := by
  refine ⟨rfl, ?_⟩
  intro h
  simp [mcInvariant, c2entry] at h

/-- C2 (amended): watches created through `AddAddressMBP` and through every
successful `EditMBP` satisfy the invariant `is_ranged = false ↔
start_address = end_address` (any watch in the store afterwards either was
already there or satisfies it); `AddRangedMBP` sets `is_ranged := true`
unconditionally, so it preserves the invariant only when `from ≠ to` and
violates it when `from = to`. -/
theorem C2_invariant_single_and_edit (tp : String → Option String) (st : WidgetState)
    (addr : Nat) (r w lg br : Bool) (c : String) (a e : Nat) (s : Option String)
    (from_addr to_addr : Nat) :
    (∀ m ∈ (addAddressMBP tp st addr r w lg br c).1.memchecks,
       m ∈ st.memchecks ∨ mcInvariant m) ∧
    (∀ res, editMBP tp st a e s = some res →
       ∀ m ∈ res.1.memchecks, m ∈ st.memchecks ∨ mcInvariant m) ∧
    (from_addr ≠ to_addr →
       ∀ m ∈ (addRangedMBP tp st from_addr to_addr r w lg br c).1.memchecks,
         m ∈ st.memchecks ∨ mcInvariant m) := by
  refine ⟨?_, ?_, ?_⟩
  · intro m hm
    rcases mem_add_mc hm with h | h
    · exact Or.inl h
    · subst h
      exact Or.inr (by simp [mcInvariant])
  · intro res hres
    unfold editMBP at hres
    cases hmc : MemChecks.GetMemCheck st.memchecks a with
    | none => rw [hmc] at hres; cases hres
    | some old =>
      rw [hmc] at hres
      dsimp only at hres
      split at hres
      · rw [Option.some_inj] at hres
        subst hres
        intro m hm
        exact Or.inl hm
      · rw [Option.some_inj] at hres
        subst hres
        intro m hm
        dsimp only at hm
        split at hm
        · rcases mem_add_mc (List.mem_of_mem_filter hm) with h | h
          · exact Or.inl h
          · subst h
            refine Or.inr ?_
            simp only [mcInvariant, decide_eq_false_iff_not, ne_eq, Bool.not_eq_false,
              decide_eq_true_eq]
            constructor
            · intro hni
              by_contra hc
              exact hni hc
            · intro hq hc
              exact hc hq
        · rcases mem_add_mc hm with h | h
          · exact Or.inl h
          · subst h
            refine Or.inr ?_
            simp only [mcInvariant, decide_eq_false_iff_not, ne_eq, Bool.not_eq_false,
              decide_eq_true_eq]
            constructor
            · intro hni
              by_contra hc
              exact hni hc
            · intro hq hc
              exact hc hq
  · intro hne m hm
    rcases mem_add_mc hm with h | h
    · exact Or.inl h
    · subst h
      exact Or.inr (by simp [mcInvariant, hne])

/-- The watch `AddAddressMBP` creates at address `3` on an empty store. -/
def c2singleEntry : TMemCheck :=
  { start_address := 3, end_address := 3, is_ranged := false,
    is_break_on_read := true, is_break_on_write := false, log_on_hit := true,
    break_on_hit := true, is_enabled := true, condition := none }

/-- Witness for C2: the watch `AddAddressMBP` creates at address `3` on an
empty store satisfies the invariant. -/
theorem C2_witness : mcInvariant c2singleEntry := by
  have h := (C2_invariant_single_and_edit tpId ⟨[], []⟩ 3 true false true true "" 0 0
    none 1 2).1
  have hm := h c2singleEntry
    (by rw [show (addAddressMBP tpId ⟨[], []⟩ 3 true false true true "").1.memchecks =
          [c2singleEntry] from rfl]
        exact List.mem_singleton_self _)
  rcases hm with hm | hm
  · cases hm
  · exact hm

/-- C3 (counterexample): the instruction store's `Add` does not replace by
address — adding a breakpoint whose address is already present yields two
entries at that address, so "at most one instruction breakpoint exists at
that address after an add" is false. -/
theorem C3_counterexample :
    ((BreakPoints.Add [sampleBp] sampleBp).filter
        (fun bp => bp.address = 7)).length = 2 := by
  rfl

/-- C3 (amended): `BreakPoints::Add` appends without replacing, so the
caller must `Remove` before `Add` to get replace semantics — which is
exactly what `EditBreakpoint` does: it removes the entry at the old address
and adds the edited one, and the resulting store has exactly one breakpoint
at the resulting address provided that address is the old one or was not
otherwise occupied. -/
theorem C3_edit_remove_then_add (tp : String → Option String) (st : WidgetState)
    (a e : Nat) (s : Option String) (old : TBreakPoint)
    (h1 : BreakPoints.GetBreakpoint st.breakpoints a = some old) :
    ((e ≠ ADDRESS_COLUMN ∨ s = none) → ∀ res, editBreakpoint tp st a e s = some res →
       (res.1.breakpoints.filter (fun x => x.address = a)).length = 1) ∧
    (∀ str b, s = some str → e = ADDRESS_COLUMN → parseHexU32 str = some b →
       (b = a ∨ ∀ x ∈ st.breakpoints, x.address ≠ b) →
       ∀ res, editBreakpoint tp st a e s = some res →
         (res.1.breakpoints.filter (fun x => x.address = b)).length = 1) := by
  constructor
  · intro he res hres
    cases s with
    | none =>
      unfold editBreakpoint at hres
      rw [h1] at hres
      dsimp only at hres
      rw [Option.some_inj] at hres
      subst hres
      exact filter_remove_add_bp rfl (Or.inl rfl)
    | some str =>
      have hne : e ≠ ADDRESS_COLUMN := by
        rcases he with he | he
        · exact he
        · cases he
      unfold editBreakpoint at hres
      rw [h1] at hres
      dsimp only at hres
      rw [if_neg hne] at hres
      dsimp only at hres
      rw [Option.some_inj] at hres
      subst hres
      exact filter_remove_add_bp rfl (Or.inl rfl)
  · intro str b hstr hcol hp hside res hres
    subst hstr
    subst hcol
    unfold editBreakpoint at hres
    rw [h1] at hres
    dsimp only at hres
    rw [if_pos rfl, hp] at hres
    dsimp only at hres
    rw [Option.some_inj] at hres
    subst hres
    exact filter_remove_add_bp rfl hside

/-- Witness for C3: a log-column edit of the sample breakpoint at address
`7` leaves exactly one breakpoint at `7`. -/
theorem C3_witness :
    (((editBreakpoint tpId sampleState 7 LOG_COLUMN none).getD
        (sampleState, [])).1.breakpoints.filter (fun x => x.address = 7)).length = 1 := by
  have h := (C3_edit_remove_then_add tpId sampleState 7 LOG_COLUMN none sampleBp rfl).1
    (Or.inl (by decide))
  exact h ((editBreakpoint tpId sampleState 7 LOG_COLUMN none).getD (sampleState, []))
    (by rfl)

/-- C4: the memory-watch `Add` is idempotent by start address
(replace-in-place, no duplicate), and an `EditMBP` that does not change the
start address performs only an `Add`: the store keeps its length (nothing
is removed) and afterwards holds exactly one watch with that start
address. -/
theorem C4_mbp_add_idempotent (tp : String → Option String) (st : WidgetState)
    (a e : Nat) (s : Option String) (old : TMemCheck) (l : MemChecks.Store)
    (mc : TMemCheck) :
    (MemChecks.Add (MemChecks.Add l mc) mc = MemChecks.Add l mc) ∧
    (l.any (fun m => m.start_address = mc.start_address) = true →
       (MemChecks.Add l mc).length = l.length) ∧
    (MemChecks.GetMemCheck st.memchecks a = some old →
       st.memchecks.Pairwise (fun x y => x.start_address ≠ y.start_address) →
       (e ≠ ADDRESS_COLUMN ∨ s = none) →
       ∀ res, editMBP tp st a e s = some res →
         res.1.memchecks.length = st.memchecks.length ∧
         (res.1.memchecks.filter (fun m => m.start_address = a)).length = 1) := by
  refine ⟨add_mc_idem l mc, length_add_of_any, ?_⟩
  intro h1 hpair hcol res hres
  have holdstart : old.start_address = a := getMemCheck_start h1
  have hmem : old ∈ st.memchecks := List.mem_of_find?_eq_some h1
  have hsome : (MemChecks.GetMemCheck st.memchecks a).isSome = true := by
    rw [h1]; rfl
  have hany : ∀ m : TMemCheck, m.start_address = a →
      st.memchecks.any (fun x => x.start_address = m.start_address) = true := by
    intro m hm
    exact List.any_eq_true.mpr ⟨old, hmem, by simp [hm, holdstart]⟩
  have hsuccess : ∀ mbp : TMemCheck, mbp.start_address = a →
      res.1.memchecks = MemChecks.Add st.memchecks mbp →
      res.1.memchecks.length = st.memchecks.length ∧
      (res.1.memchecks.filter (fun m => m.start_address = a)).length = 1 := by
    intro mbp hmbp hresmc
    rw [hresmc]
    constructor
    · exact length_add_of_any (hany mbp hmbp)
    · rw [filter_add_of_any hmbp (hany mbp hmbp)]
      exact filter_length_one_of_pairwise hpair hsome
  cases s with
  | none =>
    unfold editMBP at hres
    rw [h1] at hres
    dsimp only at hres
    rw [Option.some_inj] at hres
    subst hres
    refine hsuccess _ ?_ rfl
    exact holdstart
  | some str =>
    have hne : e ≠ ADDRESS_COLUMN := by
      rcases hcol with h | h
      · exact h
      · cases h
    unfold editMBP at hres
    rw [h1] at hres
    dsimp only at hres
    by_cases hEnd : e = END_ADDRESS_COLUMN
    · rw [if_pos (Or.inr hEnd)] at hres
      cases hp : parseHexU32 str with
      | none =>
        rw [hp] at hres
        dsimp only at hres
        rw [Option.some_inj] at hres
        subst hres
        refine ⟨rfl, ?_⟩
        exact filter_length_one_of_pairwise hpair hsome
      | some na =>
        rw [hp] at hres
        dsimp only at hres
        rw [if_neg hne] at hres
        dsimp only at hres
        rw [Option.some_inj] at hres
        subst hres
        refine hsuccess _ ?_ rfl
        exact holdstart
    · rw [if_neg (by
        intro hc
        rcases hc with hc | hc
        · exact hne hc
        · exact hEnd hc)] at hres
      dsimp only at hres
      rw [Option.some_inj] at hres
      subst hres
      refine hsuccess _ ?_ rfl
      exact holdstart

/-- Witness for C4 at a concrete store: replacing the sample watch and a
write-column edit of it both leave one watch keyed by `5` and an unchanged
store length. -/
theorem C4_witness :
    (MemChecks.Add (MemChecks.Add [sampleMc] sampleMc) sampleMc =
      MemChecks.Add [sampleMc] sampleMc) ∧
    ((((editMBP tpId sampleState 5 WRITE_COLUMN none).getD
        (sampleState, [])).1.memchecks.filter
          (fun m => m.start_address = 5)).length = 1) := by
  have h := C4_mbp_add_idempotent tpId sampleState 5 WRITE_COLUMN none sampleMc
    [sampleMc] sampleMc
  refine ⟨h.1, ?_⟩
  have h3 := h.2.2 (by rfl) (by simp [sampleState]) (Or.inl (by decide))
    ((editMBP tpId sampleState 5 WRITE_COLUMN none).getD (sampleState, [])) (by rfl)
  exact h3.2

theorem editBreakpoint_mutation_emits (tp : String → Option String) (st : WidgetState)
    (a e : Nat) (s : Option String) :
    ∀ res, editBreakpoint tp st a e s = some res → res.1 ≠ st →
      WidgetEvent.breakpointsChanged ∈ res.2 := by
  intro res hres hne
  unfold editBreakpoint at hres
  cases h : BreakPoints.GetBreakpoint st.breakpoints a with
  | none => rw [h] at hres; cases hres
  | some old =>
    rw [h] at hres
    dsimp only at hres
    split at hres
    · rw [Option.some_inj] at hres
      subst hres
      exact absurd rfl hne
    · rw [Option.some_inj] at hres
      subst hres
      exact List.mem_cons_self _ _

theorem editMBP_mutation_emits (tp : String → Option String) (st : WidgetState)
    (a e : Nat) (s : Option String) :
    ∀ res, editMBP tp st a e s = some res → res.1 ≠ st →
      WidgetEvent.breakpointsChanged ∈ res.2 := by
  intro res hres hne
  unfold editMBP at hres
  cases h : MemChecks.GetMemCheck st.memchecks a with
  | none => rw [h] at hres; cases hres
  | some old =>
    rw [h] at hres
    dsimp only at hres
    split at hres
    · rw [Option.some_inj] at hres
      subst hres
      exact absurd rfl hne
    · rw [Option.some_inj] at hres
      subst hres
      exact List.mem_cons_self _ _

/-- C5: whenever a widget operation mutates one of the stores
(toggle via `OnClicked`, `OnClear`, `OnLoad`, context-menu delete, `AddBP`,
`AddAddressMBP`, `AddRangedMBP`, `EditBreakpoint`, `EditMBP`), the
`BreakpointsChanged` notification is among the events it emits before
returning; no path mutates a store without emitting it. -/
theorem C5_mutation_implies_notification (tp : String → Option String)
    (st : WidgetState) (c a addr from_addr to_addr e : Nat)
    (m temp bh lh r w lg br : Bool) (cond : String) (s : Option String)
    (ini : Option IniFile) :
    (∀ res, onClicked tp st c a m = some res → res.1 ≠ st →
       WidgetEvent.breakpointsChanged ∈ res.2) ∧
    (WidgetEvent.breakpointsChanged ∈ (onClear st).2) ∧
    (WidgetEvent.breakpointsChanged ∈ (contextMenuDelete st a m).2) ∧
    (WidgetEvent.breakpointsChanged ∈ (addBP tp st addr temp bh lh cond).2) ∧
    (WidgetEvent.breakpointsChanged ∈ (addAddressMBP tp st addr r w lg br cond).2) ∧
    (WidgetEvent.breakpointsChanged ∈
       (addRangedMBP tp st from_addr to_addr r w lg br cond).2) ∧
    (∀ res, editBreakpoint tp st a e s = some res → res.1 ≠ st →
       WidgetEvent.breakpointsChanged ∈ res.2) ∧
    (∀ res, editMBP tp st a e s = some res → res.1 ≠ st →
       WidgetEvent.breakpointsChanged ∈ res.2) ∧
    ((onLoad ini st).1 ≠ st → WidgetEvent.breakpointsChanged ∈ (onLoad ini st).2) := by
  refine ⟨?_, List.mem_cons_self _ _, List.mem_cons_self _ _, List.mem_cons_self _ _,
    List.mem_cons_self _ _, List.mem_cons_self _ _,
    editBreakpoint_mutation_emits tp st a e s, editMBP_mutation_emits tp st a e s, ?_⟩
  · intro res hres hne
    unfold onClicked at hres
    split at hres
    · rw [Option.some_inj] at hres
      subst hres
      exact absurd rfl hne
    · split at hres
      · rw [Option.some_inj] at hres
        subst hres
        exact List.mem_cons_self _ _
      · split at hres
        · exact editMBP_mutation_emits tp st a c none res hres hne
        · exact editBreakpoint_mutation_emits tp st a c none res hres hne
  · intro hne
    cases ini with
    | none => exact absurd rfl hne
    | some i => exact List.mem_cons_self _ _

/-- Witness for C5: a concrete enabled-column edit mutates the sample
store and its event list contains the notification. -/
theorem C5_witness :
    WidgetEvent.breakpointsChanged ∈
      ((editBreakpoint tpId sampleState 7 ENABLED_COLUMN none).getD
        (sampleState, [])).2 := by
  have h := C5_mutation_implies_notification tpId sampleState 0 7 0 0 0
    ENABLED_COLUMN false false false false false false false false "" none none
  exact h.2.2.2.2.2.2.1
    ((editBreakpoint tpId sampleState 7 ENABLED_COLUMN none).getD (sampleState, []))
    (by rfl) (by decide)

/-- C6: a missing per-game ini file or a missing `BreakPoints` /
`MemoryBreakPoints` section is treated as "no entries": `OnLoad` returns
(total function, no crash) leaving the corresponding store untouched, and
a store is cleared and repopulated exactly when its section is present. -/
theorem C6_load_missing_treated_as_no_entries (st : WidgetState) (ini : IniFile)
    (lines mlines : List String) :
    (onLoad none st = (st, [])) ∧
    (IniFile.getLines ini "BreakPoints" = none →
       (onLoad (some ini) st).1.breakpoints = st.breakpoints) ∧
    (IniFile.getLines ini "BreakPoints" = some lines →
       (onLoad (some ini) st).1.breakpoints = BreakPoints.AddFromStrings lines) ∧
    (IniFile.getLines ini "MemoryBreakPoints" = none →
       (onLoad (some ini) st).1.memchecks = st.memchecks) ∧
    (IniFile.getLines ini "MemoryBreakPoints" = some mlines →
       (onLoad (some ini) st).1.memchecks = MemChecks.AddFromStrings mlines) := by
  refine ⟨rfl, ?_, ?_, ?_, ?_⟩
  · intro h
    unfold onLoad
    dsimp only
    rw [h]
    cases hm : IniFile.getLines ini "MemoryBreakPoints" <;> rfl
  · intro h
    unfold onLoad
    dsimp only
    rw [h]
    cases hm : IniFile.getLines ini "MemoryBreakPoints" <;> rfl
  · intro h
    unfold onLoad
    dsimp only
    rw [h]
    cases hb : IniFile.getLines ini "BreakPoints" <;> rfl
  · intro h
    unfold onLoad
    dsimp only
    rw [h]

/-- Witness for C6: an ini holding only a `BreakPoints` section repopulates
the breakpoint store and leaves the sample watch store untouched. -/
theorem C6_witness :
    ((onLoad (some ⟨[("BreakPoints", ["7 1 0 1 0 "])]⟩) sampleState).1.breakpoints =
       BreakPoints.AddFromStrings ["7 1 0 1 0 "]) ∧
    ((onLoad (some ⟨[("BreakPoints", ["7 1 0 1 0 "])]⟩) sampleState).1.memchecks =
       sampleState.memchecks) := by
  have h := C6_load_missing_treated_as_no_entries sampleState
    ⟨[("BreakPoints", ["7 1 0 1 0 "])]⟩ ["7 1 0 1 0 "] []
  exact ⟨h.2.2.1 (by rfl), h.2.2.2.1 (by rfl)⟩

/-- C7: `OnSave` stores the two stores' serialized line-lists under the
section names `BreakPoints` and `MemoryBreakPoints`, and `OnLoad` reads the
stores back from exactly those two sections. -/
theorem C7_persisted_under_section_names (ini : Option IniFile) (st st' : WidgetState) :
    (onSave ini st).getLines "BreakPoints" =
      some (BreakPoints.GetStrings st.breakpoints) ∧
    (onSave ini st).getLines "MemoryBreakPoints" =
      some (MemChecks.GetStrings st.memchecks) ∧
    (onLoad (some (onSave ini st)) st').1 =
      ⟨BreakPoints.AddFromStrings (BreakPoints.GetStrings st.breakpoints),
       MemChecks.AddFromStrings (MemChecks.GetStrings st.memchecks)⟩ := by
  have hbp : (onSave ini st).getLines "BreakPoints" =
      some (BreakPoints.GetStrings st.breakpoints) := by
    unfold onSave
    rw [getLines_setLines_ne _ _ (by decide), getLines_setLines_same]
  have hmc : (onSave ini st).getLines "MemoryBreakPoints" =
      some (MemChecks.GetStrings st.memchecks) := by
    unfold onSave
    rw [getLines_setLines_same]
  refine ⟨hbp, hmc, ?_⟩
  unfold onLoad
  dsimp only
  rw [hbp, hmc]

/-- C8 (counterexample): two enabled-column `EditBreakpoint` calls on the
sample breakpoint (whose `is_temporary` is true) restore `is_enabled` but
leave behind an entry whose `is_temporary` has become false — the edit path
rebuilds the record and never copies `is_temporary`, so "leaving all other
fields as they were" fails. -/
theorem C8_counterexample :
    ((editBreakpoint tpId sampleState 7 ENABLED_COLUMN none).bind
        (fun r => editBreakpoint tpId r.1 7 ENABLED_COLUMN none)) =
      some (⟨[⟨7, true, false, true, false, some "r3 == 5"⟩], [sampleMc]⟩,
        [WidgetEvent.breakpointsChanged, WidgetEvent.update]) ∧
    sampleBp.is_temporary = true := by
  constructor <;> rfl

theorem editBreakpoint_enabled_step (tp : String → Option String) (st : WidgetState)
    (a : Nat) (old : TBreakPoint)
    (h1 : BreakPoints.GetBreakpoint st.breakpoints a = some old)
    (htp : ∀ text, tp text = some text) :
    editBreakpoint tp st a ENABLED_COLUMN none =
      some (⟨BreakPoints.Add (BreakPoints.Remove st.breakpoints a)
          ⟨a, !old.is_enabled, false, old.break_on_hit, old.log_on_hit,
            old.condition⟩, st.memchecks⟩,
        [WidgetEvent.breakpointsChanged, WidgetEvent.update]) := by
  unfold editBreakpoint
  rw [h1]
  dsimp only
  rw [if_pos rfl, if_neg (by decide), if_neg (by decide)]
  cases hc : old.condition with
  | none => rfl
  | some text =>
    dsimp only
    rw [if_pos (by decide), htp text]

/-- C8 (amended): toggling the enabled state twice restores the original
`is_enabled`; through the store toggle used by `OnClicked` the store is
restored exactly, while through `EditBreakpoint` the address, break, log
and condition fields survive (the condition because re-parsing its text
round-trips) but `is_temporary` is reset to false and the entry moves to
the end of the list. -/
theorem C8_toggle_twice (tp : String → Option String) (st : WidgetState) (a : Nat)
    (m : Bool) (old : TBreakPoint)
    (h1 : BreakPoints.GetBreakpoint st.breakpoints a = some old)
    (htp : ∀ text, tp text = some text) :
    ((onClicked tp st ENABLED_COLUMN a m).bind
        (fun r => onClicked tp r.1 ENABLED_COLUMN a m)) =
      some (st, [WidgetEvent.breakpointsChanged, WidgetEvent.update]) ∧
    ((editBreakpoint tp st a ENABLED_COLUMN none).bind
        (fun r => editBreakpoint tp r.1 a ENABLED_COLUMN none)) =
      some (⟨BreakPoints.Add (BreakPoints.Remove st.breakpoints a)
          { old with is_temporary := false }, st.memchecks⟩,
        [WidgetEvent.breakpointsChanged, WidgetEvent.update]) := by
  constructor
  · rcases st with ⟨bps, mcs⟩
    cases m <;>
      simp [onClicked, ENABLED_COLUMN, ADDRESS_COLUMN, END_ADDRESS_COLUMN,
        toggle_toggle_bp, toggle_toggle_mc]
  · rw [editBreakpoint_enabled_step tp st a old h1 htp]
    rw [Option.some_bind]
    have h2 := editBreakpoint_enabled_step tp
      (⟨BreakPoints.Add (BreakPoints.Remove st.breakpoints a)
          ⟨a, !old.is_enabled, false, old.break_on_hit, old.log_on_hit,
            old.condition⟩, st.memchecks⟩ : WidgetState) a
      ⟨a, !old.is_enabled, false, old.break_on_hit, old.log_on_hit, old.condition⟩
      (getBreakpoint_remove_add rfl) htp
    rw [h2]
    have haddr : old.address = a := getBreakpoint_addr h1
    rcases old with ⟨oa, oen, otmp, obh, olh, ocond⟩
    dsimp only at haddr ⊢
    subst haddr
    rw [remove_add_remove st.breakpoints oa ⟨oa, !oen, false, obh, olh, ocond⟩ rfl]
    simp

/-- Witness for C8 at the sample state: the double toggle through
`OnClicked` restores the store, and the double enabled edit leaves the
sample breakpoint with `is_temporary` cleared. -/
theorem C8_witness :
    ((onClicked tpId sampleState ENABLED_COLUMN 7 false).bind
        (fun r => onClicked tpId r.1 ENABLED_COLUMN 7 false)) =
      some (sampleState, [WidgetEvent.breakpointsChanged, WidgetEvent.update]) ∧
    ((editBreakpoint tpId sampleState 7 ENABLED_COLUMN none).bind
        (fun r => editBreakpoint tpId r.1 7 ENABLED_COLUMN none)) =
      some (⟨BreakPoints.Add (BreakPoints.Remove sampleState.breakpoints 7)
          { sampleBp with is_temporary := false }, sampleState.memchecks⟩,
        [WidgetEvent.breakpointsChanged, WidgetEvent.update]) :=
  C8_toggle_twice tpId sampleState 7 false sampleBp (by rfl) (fun _ => rfl)
